import Mathlib

/-!
# Encrypted personal vault subsystem — shallow embedding

Embedding of the vault router (`routes/vault.js`) and the `VaultItem`
mongoose schema of the MERN password-vault backend.  Records live in a
list standing for the MongoDB collection; the caller identity resolved
by the auth middleware is an explicit `userId` argument; MongoDB object
ids and timestamps are `Nat` parameters supplied by the environment.
Fallible routes return `Except` values mirroring the HTTP error
responses of the source.
-/

namespace Vault

/-- The `VaultItem` mongoose schema: `userId`, `title`, `encryptedData`,
`iv` (all required), `tags : [String]`, plus the `timestamps : true`
pair `createdAt` / `updatedAt` and the Mongo-assigned `_id`. -/
structure VaultItem where
  id : Nat
  userId : Nat
  title : String
  encryptedData : String
  iv : String
  tags : List String
  createdAt : Nat
  updatedAt : Nat
deriving DecidableEq, Repr

/-- Error responses of the vault routes: HTTP 400 "Validation failed"
and HTTP 404 "Item not found". -/
inductive VaultError where
  | validation
  | notFound
deriving DecidableEq, Repr

/-! ## Case-insensitive matching and the MongoDB `$regex` fragment

The search route hands the raw query to MongoDB as
`{ $regex: query, $options: 'i' }` for titles and
`{ tags: { $in: [new RegExp(query, 'i')] } }` for tags.  We model the
fragment of that regex language consisting of literal characters and
the `.` wildcard, with ASCII case folding for the `i` option.  The
remaining metacharacters (`*`, `+`, `?`, brackets, parentheses, `|`,
backslash, anchors, braces) are NOT modelled: `isRegexMeta` names the
whole metacharacter set, and every theorem that reads a query through
this model as a literal restricts it to metacharacter-free queries, on
which a regex of pure literals matches exactly by case-insensitive
substring containment. -/

/-- The query characters MongoDB `$regex` / JavaScript `RegExp`
interpret specially rather than literally.  Queries containing any of
these are outside the literal fragment of the model. -/
def isRegexMeta (c : Char) : Bool :=
  c == '.' || c == '*' || c == '+' || c == '?' || c == '[' || c == ']' ||
  c == '(' || c == ')' || c == '|' || c == '\\' || c == '^' || c == '$' ||
  c == '\x7b' || c == '\x7d'

/-- ASCII case-insensitive character comparison (the `i` regex option). -/
def lowerEq (a b : Char) : Bool :=
  a.toLower == b.toLower

/-- Tokens of the modelled regex fragment: a literal character or the
`.` wildcard. -/
inductive RTok where
  | lit (c : Char)
  | dot
deriving DecidableEq, Repr

/-- Compile a query string into regex tokens: `.` becomes the wildcard,
every other character is a literal.  This is faithful to `$regex` only
on queries whose characters are all literal or `.`; queries containing
another `isRegexMeta` character are outside the modelled fragment and
are excluded by hypothesis from every theorem built on this
definition. -/
def parseQuery : List Char → List RTok
  | [] => []
  | c :: cs => (if c == '.' then RTok.dot else RTok.lit c) :: parseQuery cs

/-- One token against one character. -/
def tokMatches : RTok → Char → Bool
  | RTok.dot, _ => true
  | RTok.lit a, c => lowerEq a c

/-- Match the whole token list against a prefix of the character list. -/
def matchHere : List RTok → List Char → Bool
  | [], _ => true
  | _ :: _, [] => false
  | t :: ts, c :: cs => tokMatches t c && matchHere ts cs

/-- Unanchored regex search: does the pattern match at some position of
the string (MongoDB `$regex` containment semantics)? -/
def regexFind (p : List RTok) : List Char → Bool
  | [] => matchHere p []
  | c :: cs => matchHere p (c :: cs) || regexFind p cs

/-- Case-insensitive prefix test on character lists. -/
def isPrefixCI : List Char → List Char → Bool
  | [], _ => true
  | _ :: _, [] => false
  | q :: qs, c :: cs => lowerEq q c && isPrefixCI qs cs

/-- Case-insensitive substring containment: `q` occurs inside `s`.
This is the spec's notion of matching; it is compared against the
source's regex semantics. -/
def containsCI (q : List Char) : List Char → Bool
  | [] => isPrefixCI q []
  | c :: cs => isPrefixCI q (c :: cs) || containsCI q cs

/-- The search route's per-record predicate: the `$or` of a title
`$regex` match and a tag `$in [RegExp]` match (any tag matches). -/
def matchRecord (q : String) (r : VaultItem) : Bool :=
  regexFind (parseQuery q.data) r.title.data
    || r.tags.any (fun t => regexFind (parseQuery q.data) t.data)

/-! ## Sorting: `.sort({ createdAt: -1 })` -/

/-- The sort key order used by every read route: `createdAt`
descending. -/
def byCreatedAtDesc (a b : VaultItem) : Prop :=
  b.createdAt ≤ a.createdAt

instance : DecidableRel byCreatedAtDesc :=
  fun a b => inferInstanceAs (Decidable (b.createdAt ≤ a.createdAt))

instance : IsTotal VaultItem byCreatedAtDesc :=
  ⟨fun a b => Nat.le_total b.createdAt a.createdAt⟩

instance : IsTrans VaultItem byCreatedAtDesc :=
  ⟨fun _ _ _ h1 h2 => Nat.le_trans h2 h1⟩

/-- `.sort({ createdAt: -1 })`: arrange a result set by `createdAt`
descending. -/
def sortByCreatedAtDesc (l : List VaultItem) : List VaultItem :=
  l.insertionSort byCreatedAtDesc

/-! ## JavaScript string helpers used by the routes -/

/-- Whitespace recognised by JavaScript `String.prototype.trim`
(ASCII fragment). -/
def isJsWhitespace (c : Char) : Bool :=
  c == ' ' || c == '\t' || c == '\n' || c == '\r' || c == '\x0b' || c == '\x0c'

/-- JavaScript `String.prototype.trim`: strip whitespace from both
ends. -/
def jsTrim (s : String) : String :=
  ⟨((s.data.dropWhile isJsWhitespace).reverse.dropWhile isJsWhitespace).reverse⟩

/-! ## The vault routes -/

/-- First-match lookup, as `VaultItem.findOne` over the collection. -/
def findOneBy (db : List VaultItem) (itemId uid : Nat) : Option VaultItem :=
  db.find? (fun r => r.id == itemId && r.userId == uid)

/-- Replace the first record satisfying `p` (the in-place mutation plus
`save()` of the update route). -/
def replaceFirst (p : VaultItem → Bool) (new : VaultItem) : List VaultItem → List VaultItem
  | [] => []
  | r :: rs => if p r then new :: rs else r :: replaceFirst p new rs

/-- Remove the first record satisfying `p` (`findOneAndDelete`). -/
def removeFirst (p : VaultItem → Bool) : List VaultItem → List VaultItem
  | [] => []
  | r :: rs => if p r then rs else r :: removeFirst p rs

/-- `GET /items`: all records of the caller, newest first. -/
def listItems (db : List VaultItem) (uid : Nat) : List VaultItem :=
  sortByCreatedAtDesc (db.filter (fun r => r.userId == uid))

/-- `POST /items`: `notEmpty` validation on `title`, `encryptedData`,
`iv`, then a new record with `tags: tags || []` and Mongo-assigned id
and timestamps is saved and returned.  `newId` and `now` stand for the
fresh ObjectId and the clock reading at save time. -/
def createItem (db : List VaultItem) (uid : Nat) (title encryptedData iv : String)
    (tags : Option (List String)) (newId now : Nat) :
    Except VaultError (List VaultItem × VaultItem) :=
  if title == "" || encryptedData == "" || iv == "" then
    .error .validation
  else
    let item : VaultItem :=
      ⟨newId, uid, title, encryptedData, iv, tags.getD [], now, now⟩
    .ok (db ++ [item], item)

/-- `PUT /items/:id`: `notEmpty` validation first, then `findOne` on
`(_id, userId)`; on a match the four mutable fields are overwritten
(`tags: tags || []`), `updatedAt` is bumped by the save, and the
record is returned. -/
def updateItem (db : List VaultItem) (uid itemId : Nat) (title encryptedData iv : String)
    (tags : Option (List String)) (now : Nat) :
    Except VaultError (List VaultItem × VaultItem) :=
  if title == "" || encryptedData == "" || iv == "" then
    .error .validation
  else
    match findOneBy db itemId uid with
    | none => .error .notFound
    | some old =>
      let updated : VaultItem :=
        { old with
          title := title
          encryptedData := encryptedData
          iv := iv
          tags := tags.getD []
          updatedAt := now }
      .ok (replaceFirst (fun r => r.id == itemId && r.userId == uid) updated db, updated)

/-- `DELETE /items/:id`: `findOneAndDelete` on `(_id, userId)`; 404
when no match, otherwise the record is removed permanently. -/
def deleteItem (db : List VaultItem) (uid itemId : Nat) :
    Except VaultError (List VaultItem) :=
  match findOneBy db itemId uid with
  | none => .error .notFound
  | some _ => .ok (removeFirst (fun r => r.id == itemId && r.userId == uid) db)

/-- The search route's non-blank branch: owner scope AND
(`title` regex-match OR some tag regex-match), newest first. -/
def searchItems (db : List VaultItem) (uid : Nat) (q : String) : List VaultItem :=
  sortByCreatedAtDesc
    (db.filter (fun r => r.userId == uid && matchRecord q r))

/-- `GET /search`: when the query parameter is absent (`!query`) or
blank (`query.trim() === ''`) the route runs the same find as
`GET /items`; otherwise the regex search. -/
def searchRoute (db : List VaultItem) (uid : Nat) (q : Option String) : List VaultItem :=
  match q with
  | none => listItems db uid
  | some s => if jsTrim s == "" then listItems db uid else searchItems db uid s

/-! ## Master key gate -/

/-- Modelled from the spec: the stored master-key verifier is a one-way
salted hash set outside this subsystem (`bcrypt`); a comparison of a
presented key against it succeeds exactly when the presented key equals
the key used to set it.  The hash is kept opaque as a wrapper around
that key. -/
structure StoredHash where
  sourceKey : String
deriving DecidableEq, Repr

/-- Modelled from the spec: `bcrypt.compare(presented, hash)` — true
exactly on a match with the key the hash was derived from; never
reveals the hash. -/
def bcryptCompare (presented : String) (h : StoredHash) : Bool :=
  presented == h.sourceKey

/-- The user account entity, as consumed by the verify route:
`User.findById` supplies the stored `masterKey` verifier. -/
structure User where
  id : Nat
  masterKey : StoredHash
deriving DecidableEq, Repr

/-- Outcomes of `POST /verify-master-key`, one per response of the
route: 400 "Master key is required"; 404 "User not found";
400 "Invalid master key" (the boolean false result); and the success
response "Master key verified successfully". -/
inductive VerifyResult where
  | invalidInput
  | userNotFound
  | invalidKey
  | verified
deriving DecidableEq, Repr

/-- `POST /verify-master-key`: reject an empty/missing key
(`!masterKey`), look the caller's account up, then
`bcrypt.compare(masterKey, user.masterKey)` decides between the
false result and success. -/
def verifyMasterKey (users : List User) (uid : Nat) (masterKey : String) : VerifyResult :=
  if masterKey == "" then
    .invalidInput
  else
    match users.find? (fun u => u.id == uid) with
    | none => .userNotFound
    | some u =>
      if bcryptCompare masterKey u.masterKey then .verified else .invalidKey

end Vault

namespace Vault

/-! ## Helper lemmas -/

theorem mem_sortByCreatedAtDesc {l : List VaultItem} {x : VaultItem} :
    x ∈ sortByCreatedAtDesc l ↔ x ∈ l :=
  List.mem_insertionSort byCreatedAtDesc

theorem sorted_sortByCreatedAtDesc (l : List VaultItem) :
    List.Sorted byCreatedAtDesc (sortByCreatedAtDesc l) :=
  List.sorted_insertionSort byCreatedAtDesc l

theorem mem_listItems {db : List VaultItem} {uid : Nat} {x : VaultItem} :
    x ∈ listItems db uid ↔ x ∈ db ∧ x.userId = uid := by
  simp [listItems, sortByCreatedAtDesc, List.mem_filter]

theorem mem_searchItems {db : List VaultItem} {uid : Nat} {q : String} {x : VaultItem} :
    x ∈ searchItems db uid q ↔ x ∈ db ∧ x.userId = uid ∧ matchRecord q x = true := by
  simp [searchItems, sortByCreatedAtDesc, List.mem_filter, and_assoc]

theorem userId_of_mem_searchRoute {db : List VaultItem} {uid : Nat} {q : Option String}
    {x : VaultItem} (h : x ∈ searchRoute db uid q) : x.userId = uid := by
  cases q with
  | none => exact (mem_listItems.mp h).2
  | some s =>
    by_cases hb : jsTrim s == ""
    · rw [searchRoute, if_pos hb] at h
      exact (mem_listItems.mp h).2
    · rw [searchRoute, if_neg hb] at h
      exact (mem_searchItems.mp h).2.1

theorem mem_db_of_mem_searchRoute {db : List VaultItem} {uid : Nat} {q : Option String}
    {x : VaultItem} (h : x ∈ searchRoute db uid q) : x ∈ db := by
  cases q with
  | none => exact (mem_listItems.mp h).1
  | some s =>
    by_cases hb : jsTrim s == ""
    · rw [searchRoute, if_pos hb] at h
      exact (mem_listItems.mp h).1
    · rw [searchRoute, if_neg hb] at h
      exact (mem_searchItems.mp h).1

theorem matchHere_parseQuery (q : List Char) (hdot : ∀ c ∈ q, c ≠ '.') :
    ∀ s : List Char, matchHere (parseQuery q) s = isPrefixCI q s := by
  induction q with
  | nil => intro s; cases s <;> rfl
  | cons c q ih =>
    intro s
    have hc : (c == '.') = false :=
      beq_eq_false_iff_ne.mpr (hdot c (List.mem_cons_self c q))
    cases s with
    | nil => simp [parseQuery, hc, matchHere, isPrefixCI]
    | cons a s' =>
      have ih' := ih (fun x hx => hdot x (List.mem_cons_of_mem c hx)) s'
      simp [parseQuery, hc, matchHere, isPrefixCI, tokMatches, ih']

theorem regexFind_parseQuery (q : List Char) (hdot : ∀ c ∈ q, c ≠ '.') :
    ∀ s : List Char, regexFind (parseQuery q) s = containsCI q s := by
  intro s
  induction s with
  | nil => simp [regexFind, containsCI, matchHere_parseQuery q hdot]
  | cons a s' ih => simp [regexFind, containsCI, matchHere_parseQuery q hdot, ih]

theorem matchRecord_eq_substring (q : String) (hdot : ∀ c ∈ q.data, c ≠ '.') (r : VaultItem) :
    matchRecord q r =
      (containsCI q.data r.title.data || r.tags.any (fun t => containsCI q.data t.data)) := by
  simp [matchRecord, regexFind_parseQuery q.data hdot]

end Vault

namespace Vault

theorem findOneBy_cross_owner {db : List VaultItem} {A B : Nat} {r : VaultItem}
    (hnd : (db.map VaultItem.id).Nodup) (hr : r ∈ db) (hA : r.userId = A) (hAB : A ≠ B) :
    findOneBy db r.id B = none := by
  rw [findOneBy, List.find?_eq_none]
  intro x hx hpx
  have hp := (Bool.and_eq_true _ _).mp hpx
  have hid : x.id = r.id := eq_of_beq hp.1
  have hxu : x.userId = B := eq_of_beq hp.2
  have hxr : x = r := List.inj_on_of_nodup_map hnd hx hr hid
  exact hAB (hA ▸ hxr ▸ hxu)

theorem find?_append_singleton {p : VaultItem → Bool} {l : List VaultItem}
    (h : ∀ x ∈ l, p x = false) (y : VaultItem) :
    (l ++ [y]).find? p = if p y then some y else none := by
  induction l with
  | nil =>
    cases hy : p y <;> simp [List.find?, hy]
  | cons a l ih =>
    have ha : p a = false := h a (List.mem_cons_self a l)
    rw [List.cons_append, List.find?_cons_of_neg _ (by simp [ha])]
    exact ih (fun x hx => h x (List.mem_cons_of_mem a hx))

theorem replaceFirst_append_singleton {p : VaultItem → Bool} {l : List VaultItem}
    (h : ∀ x ∈ l, p x = false) (y n : VaultItem) :
    replaceFirst p n (l ++ [y]) = l ++ [if p y then n else y] := by
  induction l with
  | nil => cases hy : p y <;> simp [replaceFirst, hy]
  | cons a l ih =>
    have ha : p a = false := h a (List.mem_cons_self a l)
    rw [List.cons_append, replaceFirst, if_neg (by simp [ha]), List.cons_append,
      ih (fun x hx => h x (List.mem_cons_of_mem a hx))]

theorem mem_replaceFirst_self {p : VaultItem → Bool} {l : List VaultItem} {old : VaultItem}
    (h : l.find? p = some old) (n : VaultItem) : n ∈ replaceFirst p n l := by
  induction l with
  | nil => simp [List.find?] at h
  | cons a l ih =>
    cases ha : p a with
    | true => simp [replaceFirst, ha]
    | false =>
      rw [List.find?_cons_of_neg _ (by simp [ha])] at h
      simp [replaceFirst, ha, ih h]

theorem removeFirst_no_id {db : List VaultItem} {itemId uid : Nat} {r0 : VaultItem}
    (hnd : (db.map VaultItem.id).Nodup)
    (hf : db.find? (fun r => r.id == itemId && r.userId == uid) = some r0) :
    ∀ x ∈ removeFirst (fun r => r.id == itemId && r.userId == uid) db, x.id ≠ itemId := by
  induction db with
  | nil => simp [List.find?] at hf
  | cons a db ih =>
    rw [List.map_cons, List.nodup_cons] at hnd
    intro x hx
    cases ha : (a.id == itemId && a.userId == uid) with
    | true =>
      have haid : a.id = itemId := eq_of_beq ((Bool.and_eq_true _ _).mp ha).1
      rw [removeFirst, if_pos ha] at hx
      intro hxid
      apply hnd.1
      rw [haid, ← hxid]
      exact List.mem_map_of_mem VaultItem.id hx
    | false =>
      rw [List.find?_cons_of_neg _ (by simp [ha])] at hf
      rw [removeFirst, if_neg (by simp [ha])] at hx
      have hr0 : r0 ∈ db := List.mem_of_find?_eq_some hf
      have hp0 := List.find?_some hf
      simp only [Bool.and_eq_true, beq_iff_eq] at hp0
      have hr0id : r0.id = itemId := hp0.1
      rcases List.mem_cons.mp hx with rfl | hx'
      · intro hxid
        apply hnd.1
        rw [hxid, ← hr0id]
        exact List.mem_map_of_mem VaultItem.id hr0
      · exact ih hnd.2 hf x hx'

end Vault

namespace Vault

/-- Claim C1: for every account and non-empty presented key,
`verify-master-key` yields the boolean result: the success response
exactly when the presented key matches the key the stored verifier was
set from, and the "Invalid master key" false result for any other
non-empty key, never an exception; the "Master key is required"
(`InvalidInput`) failure occurs only for an empty presented key. -/
theorem verifyMasterKey_correct (users : List User) (uid : Nat) (u : User)
    (k presented : String)
    (hu : users.find? (fun x => x.id == uid) = some u)
    (hk : u.masterKey = StoredHash.mk k)
    (hne : presented ≠ "") :
    (verifyMasterKey users uid presented = .verified ↔ presented = k) ∧
    (presented ≠ k → verifyMasterKey users uid presented = .invalidKey) ∧
    verifyMasterKey users uid presented ≠ .invalidInput ∧
    verifyMasterKey users uid "" = .invalidInput := by
  have hb : (presented == "") = false := beq_eq_false_iff_ne.mpr hne
  have hv : verifyMasterKey users uid presented =
      (if (presented == k) = true then VerifyResult.verified else VerifyResult.invalidKey) := by
    simp [verifyMasterKey, hb, hu, hk, bcryptCompare]
  refine ⟨?_, ?_, ?_, ?_⟩
  · rw [hv]
    by_cases hpk : presented = k <;> simp [hpk]
  · intro hpk
    rw [hv]
    simp [hpk]
  · rw [hv]
    by_cases hpk : presented = k <;> simp [hpk]
  · simp [verifyMasterKey]

/-- Witness for C1 at a concrete account and a near-miss key. -/
theorem verifyMasterKey_correct_witness :
    (verifyMasterKey [⟨7, ⟨"hunter2"⟩⟩] 7 ("hunter3") = .verified ↔
      ("hunter3" : String) = ("hunter2" : String)) ∧
    (("hunter3" : String) ≠ ("hunter2" : String) →
      verifyMasterKey [⟨7, ⟨"hunter2"⟩⟩] 7 ("hunter3") = .invalidKey) ∧
    verifyMasterKey [⟨7, ⟨"hunter2"⟩⟩] 7 ("hunter3") ≠ .invalidInput ∧
    verifyMasterKey [⟨7, ⟨"hunter2"⟩⟩] 7 ("") = .invalidInput :=
  verifyMasterKey_correct [⟨7, ⟨"hunter2"⟩⟩] 7 ⟨7, ⟨"hunter2"⟩⟩ ("hunter2") ("hunter3")
    (by decide) rfl (by decide)

/-- Claim C3: a search with an absent, empty or whitespace-only query
returns exactly the same sequence as the list route for that owner. -/
theorem search_blank_eq_list (db : List VaultItem) (uid : Nat) (q : Option String)
    (hblank : q = none ∨ ∃ s, q = some s ∧ jsTrim s = "") :
    searchRoute db uid q = listItems db uid := by
  rcases hblank with h | ⟨s, rfl, hs⟩
  · rw [h]
    rfl
  · rw [searchRoute, if_pos (beq_iff_eq.mpr hs)]

/-- Witness for C3 on a one-record store and a whitespace query. -/
theorem search_blank_eq_list_witness :
    searchRoute [⟨1, 1, "a", "e", "i", [], 0, 0⟩] 1 (some ("  ")) =
      listItems [⟨1, 1, "a", "e", "i", [], 0, 0⟩] 1 :=
  search_blank_eq_list [⟨1, 1, "a", "e", "i", [], 0, 0⟩] 1 (some ("  "))
    (Or.inr ⟨"  ", rfl, by decide⟩)

/-- Claim C5: create fails with the validation error exactly when one
of `title`, `encryptedData`, `iv` is empty (with the caller identity,
the fourth required field, always present by construction); on valid
input it assigns the fresh id and both timestamps, appends the record
to the store, and returns it; update applies the identical validation
predicate. -/
theorem create_update_validation (db : List VaultItem) (uid itemId : Nat)
    (title encryptedData iv : String) (tags : Option (List String)) (newId now : Nat) :
    (createItem db uid title encryptedData iv tags newId now = .error .validation ↔
      (title = "" ∨ encryptedData = "" ∨ iv = "")) ∧
    (title ≠ "" → encryptedData ≠ "" → iv ≠ "" →
      createItem db uid title encryptedData iv tags newId now =
        .ok (db ++ [⟨newId, uid, title, encryptedData, iv, tags.getD [], now, now⟩],
          ⟨newId, uid, title, encryptedData, iv, tags.getD [], now, now⟩)) ∧
    (updateItem db uid itemId title encryptedData iv tags now = .error .validation ↔
      (title = "" ∨ encryptedData = "" ∨ iv = "")) := by
  refine ⟨?_, ?_, ?_⟩
  · by_cases h : title = "" ∨ encryptedData = "" ∨ iv = ""
    · rcases h with h | h | h <;> simp [createItem, h]
    · push_neg at h
      have hne : createItem db uid title encryptedData iv tags newId now ≠ .error .validation := by
        simp [createItem, h.1, h.2.1, h.2.2]
      exact iff_of_false hne (by simp [h.1, h.2.1, h.2.2])
  · intro h1 h2 h3
    simp [createItem, h1, h2, h3]
  · by_cases h : title = "" ∨ encryptedData = "" ∨ iv = ""
    · rcases h with h | h | h <;> simp [updateItem, h]
    · push_neg at h
      have hne : updateItem db uid itemId title encryptedData iv tags now ≠ .error .validation := by
        simp only [updateItem]
        rw [if_neg (by simp [h.1, h.2.1, h.2.2])]
        cases findOneBy db itemId uid <;> simp
      exact iff_of_false hne (by simp [h.1, h.2.1, h.2.2])

/-- Witness for C5 at concrete create and update calls. -/
theorem create_update_validation_witness :
    (createItem [] 1 ("t") ("e") ("i") none 2 3 = .error .validation ↔
      (("t" : String) = "" ∨ ("e" : String) = "" ∨ ("i" : String) = "")) ∧
    (("t" : String) ≠ "" → ("e" : String) ≠ "" → ("i" : String) ≠ "" →
      createItem [] 1 ("t") ("e") ("i") none 2 3 =
        .ok ([] ++ [⟨2, 1, "t", "e", "i", (none : Option (List String)).getD [], 3, 3⟩],
          ⟨2, 1, "t", "e", "i", (none : Option (List String)).getD [], 3, 3⟩)) ∧
    (updateItem [] 1 9 ("t") ("e") ("i") none 3 = .error .validation ↔
      (("t" : String) = "" ∨ ("e" : String) = "" ∨ ("i" : String) = "")) :=
  create_update_validation [] 1 9 ("t") ("e") ("i") none 2 3

/-- Claim C10: on update, validation runs before the record lookup, so
an empty required field yields the validation error for every store
content, owner and id — including a nonexistent id. -/
theorem update_validates_before_lookup (db : List VaultItem) (uid itemId : Nat)
    (title encryptedData iv : String) (tags : Option (List String)) (now : Nat)
    (h : title = "" ∨ encryptedData = "" ∨ iv = "") :
    updateItem db uid itemId title encryptedData iv tags now = .error .validation := by
  rcases h with h | h | h <;> simp [updateItem, h]

/-- Witness for C10: empty title against an empty store (the id cannot
exist), still the validation error. -/
theorem update_validates_before_lookup_witness :
    updateItem [] 5 9 ("") ("e") ("i") none 0 = .error .validation :=
  update_validates_before_lookup [] 5 9 ("") ("e") ("i") none 0 (Or.inl rfl)

end Vault

namespace Vault

/-- Claim C2 is false as stated: the route passes the raw query to
`$regex`, so the query "a.c" (where `.` is a wildcard) returns a record
titled "abc" although neither the title nor any tag contains "a.c" as a
substring. -/
theorem search_substring_counterexample :
    (⟨1, 1, "abc", "p", "v", [], 0, 0⟩ : VaultItem) ∈
      searchRoute [⟨1, 1, "abc", "p", "v", [], 0, 0⟩] 1 (some ("a.c")) ∧
    containsCI ("a.c").data (("abc" : String)).data = false ∧
    ((⟨1, 1, "abc", "p", "v", [], 0, 0⟩ : VaultItem).tags.all
      (fun t => !containsCI ("a.c").data t.data)) = true ∧
    jsTrim ("a.c") ≠ "" := by
  decide

/-- Claim C2 (amended): the route interprets the raw query as a
case-insensitive regular expression, not a literal substring; for a
non-blank query free of every regex metacharacter (`isRegexMeta`), a
regex of pure literals matches exactly by containment, so search
returns exactly the caller's records whose title or some tag
case-insensitively contains the query as a substring, ordered by
`createdAt` descending, and matching never depends on
`encryptedData`. -/
theorem search_regex_semantics (db : List VaultItem) (uid : Nat) (q : String)
    (r : VaultItem) (payload : String)
    (hq : jsTrim q ≠ "")
    (hmeta : ∀ c ∈ q.data, isRegexMeta c = false) :
    (r ∈ searchRoute db uid (some q) ↔
      r ∈ db ∧ r.userId = uid ∧
        (containsCI q.data r.title.data = true ∨
          ∃ t ∈ r.tags, containsCI q.data t.data = true)) ∧
    List.Sorted byCreatedAtDesc (searchRoute db uid (some q)) ∧
    matchRecord q { r with encryptedData := payload } = matchRecord q r := by
  have hdot : ∀ c ∈ q.data, c ≠ '.' := by
    intro c hc heq
    have h := hmeta c hc
    rw [heq] at h
    simp [isRegexMeta] at h
  have hb : (jsTrim q == "") = false := beq_eq_false_iff_ne.mpr hq
  refine ⟨?_, ?_, ?_⟩
  · rw [searchRoute, if_neg (by simp [hb]), mem_searchItems,
      matchRecord_eq_substring q hdot r]
    simp [and_assoc]
  · rw [searchRoute, if_neg (by simp [hb])]
    exact sorted_sortByCreatedAtDesc _
  · rfl

/-- Witness for the amended C2 on a one-record store and the query
"BANK" against the title "my bank". -/
theorem search_regex_semantics_witness :
    ((⟨1, 1, "my bank", "p", "v", ["finance"], 0, 0⟩ : VaultItem) ∈
      searchRoute [⟨1, 1, "my bank", "p", "v", ["finance"], 0, 0⟩] 1 (some ("BANK")) ↔
      (⟨1, 1, "my bank", "p", "v", ["finance"], 0, 0⟩ : VaultItem) ∈
          [(⟨1, 1, "my bank", "p", "v", ["finance"], 0, 0⟩ : VaultItem)] ∧
        (⟨1, 1, "my bank", "p", "v", ["finance"], 0, 0⟩ : VaultItem).userId = 1 ∧
        (containsCI ("BANK").data
            (⟨1, 1, "my bank", "p", "v", ["finance"], 0, 0⟩ : VaultItem).title.data = true ∨
          ∃ t ∈ (⟨1, 1, "my bank", "p", "v", ["finance"], 0, 0⟩ : VaultItem).tags,
            containsCI ("BANK").data t.data = true)) ∧
    List.Sorted byCreatedAtDesc
      (searchRoute [⟨1, 1, "my bank", "p", "v", ["finance"], 0, 0⟩] 1 (some ("BANK"))) ∧
    matchRecord ("BANK")
        { (⟨1, 1, "my bank", "p", "v", ["finance"], 0, 0⟩ : VaultItem) with
          encryptedData := ("zz" : String) } =
      matchRecord ("BANK") (⟨1, 1, "my bank", "p", "v", ["finance"], 0, 0⟩ : VaultItem) :=
  search_regex_semantics [⟨1, 1, "my bank", "p", "v", ["finance"], 0, 0⟩] 1 ("BANK")
    ⟨1, 1, "my bank", "p", "v", ["finance"], 0, 0⟩ ("zz") (by decide) (by decide)

/-- Claim C4: with unique record ids, a caller distinct from a record's
owner gets the not-found error from update and delete on that record's
id, never sees it in list or search results, and list only ever returns
records owned by the caller. -/
theorem cross_owner_isolation (db : List VaultItem) (A B : Nat) (r x : VaultItem)
    (title encryptedData iv : String) (tags : Option (List String)) (now : Nat)
    (q : Option String)
    (hnd : (db.map VaultItem.id).Nodup)
    (hr : r ∈ db) (hA : r.userId = A) (hAB : A ≠ B)
    (ht : title ≠ "") (he : encryptedData ≠ "") (hiv : iv ≠ "") :
    updateItem db B r.id title encryptedData iv tags now = .error .notFound ∧
    deleteItem db B r.id = .error .notFound ∧
    r ∉ listItems db B ∧
    r ∉ searchRoute db B q ∧
    (x ∈ listItems db B → x.userId = B) := by
  have hfind : findOneBy db r.id B = none := findOneBy_cross_owner hnd hr hA hAB
  refine ⟨?_, ?_, ?_, ?_, ?_⟩
  · simp only [updateItem]
    rw [if_neg (by simp [ht, he, hiv]), hfind]
  · rw [deleteItem, hfind]
  · intro hmem
    exact hAB (hA ▸ (mem_listItems.mp hmem).2)
  · intro hmem
    exact hAB (hA ▸ userId_of_mem_searchRoute hmem)
  · intro hmem
    exact (mem_listItems.mp hmem).2

/-- Witness for C4: owner 10's record against caller 20. -/
theorem cross_owner_isolation_witness :
    updateItem [⟨1, 10, "a", "e", "i", [], 0, 0⟩] 20
        (⟨1, 10, "a", "e", "i", [], 0, 0⟩ : VaultItem).id ("b") ("f") ("j") none 1 =
      .error .notFound ∧
    deleteItem [⟨1, 10, "a", "e", "i", [], 0, 0⟩] 20
        (⟨1, 10, "a", "e", "i", [], 0, 0⟩ : VaultItem).id = .error .notFound ∧
    (⟨1, 10, "a", "e", "i", [], 0, 0⟩ : VaultItem) ∉
      listItems [⟨1, 10, "a", "e", "i", [], 0, 0⟩] 20 ∧
    (⟨1, 10, "a", "e", "i", [], 0, 0⟩ : VaultItem) ∉
      searchRoute [⟨1, 10, "a", "e", "i", [], 0, 0⟩] 20 (some ("a")) ∧
    ((⟨1, 10, "a", "e", "i", [], 0, 0⟩ : VaultItem) ∈
        listItems [⟨1, 10, "a", "e", "i", [], 0, 0⟩] 20 →
      (⟨1, 10, "a", "e", "i", [], 0, 0⟩ : VaultItem).userId = 20) :=
  cross_owner_isolation [⟨1, 10, "a", "e", "i", [], 0, 0⟩] 10 20
    ⟨1, 10, "a", "e", "i", [], 0, 0⟩ ⟨1, 10, "a", "e", "i", [], 0, 0⟩
    ("b") ("f") ("j") none 1 (some ("a"))
    (by decide) (by decide) rfl (by decide) (by decide) (by decide) (by decide)

/-- Claim C6: a successful owner-matched update replaces the four
mutable fields as one unit from the request — the stored record carries
exactly the request's `title`, `encryptedData`, `iv` and `tags` — and
an absent `tags` resets the stored tags to the empty sequence. -/
theorem update_replaces_unit (db db' : List VaultItem) (uid itemId : Nat)
    (title encryptedData iv : String) (tags : Option (List String)) (now : Nat)
    (r : VaultItem)
    (h : updateItem db uid itemId title encryptedData iv tags now = .ok (db', r)) :
    r.title = title ∧ r.encryptedData = encryptedData ∧ r.iv = iv ∧
    r.tags = tags.getD [] ∧ (tags = none → r.tags = []) ∧
    ∃ old ∈ db, old.id = itemId ∧ old.userId = uid ∧
      r = { old with
            title := title
            encryptedData := encryptedData
            iv := iv
            tags := tags.getD []
            updatedAt := now } ∧
      db' = replaceFirst (fun y => y.id == itemId && y.userId == uid) r db := by
  simp only [updateItem] at h
  split at h
  · exact absurd h (by simp)
  · split at h
    · exact absurd h (by simp)
    · rename_i old heq
      have hol : old ∈ db := List.mem_of_find?_eq_some heq
      have hp := List.find?_some heq
      simp only [Bool.and_eq_true, beq_iff_eq] at hp
      injection h with h'
      obtain ⟨h1, h2⟩ := Prod.mk.inj h'
      subst h1
      subst h2
      refine ⟨rfl, rfl, rfl, rfl, ?_, old, hol, hp.1, hp.2, rfl, rfl⟩
      intro htg
      subst htg
      rfl

/-- Witness for C6: an update with `tags` absent resets tags to `[]`. -/
theorem update_replaces_unit_witness :
    (⟨1, 1, "b", "f", "j", [], 0, 5⟩ : VaultItem).title = ("b" : String) ∧
    (⟨1, 1, "b", "f", "j", [], 0, 5⟩ : VaultItem).encryptedData = ("f" : String) ∧
    (⟨1, 1, "b", "f", "j", [], 0, 5⟩ : VaultItem).iv = ("j" : String) ∧
    (⟨1, 1, "b", "f", "j", [], 0, 5⟩ : VaultItem).tags =
      (none : Option (List String)).getD [] ∧
    ((none : Option (List String)) = none →
      (⟨1, 1, "b", "f", "j", [], 0, 5⟩ : VaultItem).tags = []) ∧
    ∃ old ∈ [(⟨1, 1, "a", "e", "i", ["x"], 0, 0⟩ : VaultItem)], old.id = 1 ∧
      old.userId = 1 ∧
      (⟨1, 1, "b", "f", "j", [], 0, 5⟩ : VaultItem) =
        { old with
          title := ("b" : String)
          encryptedData := ("f" : String)
          iv := ("j" : String)
          tags := (none : Option (List String)).getD []
          updatedAt := 5 } ∧
      [(⟨1, 1, "b", "f", "j", [], 0, 5⟩ : VaultItem)] =
        replaceFirst (fun y => y.id == 1 && y.userId == 1)
          ⟨1, 1, "b", "f", "j", [], 0, 5⟩ [⟨1, 1, "a", "e", "i", ["x"], 0, 0⟩] :=
  update_replaces_unit [⟨1, 1, "a", "e", "i", ["x"], 0, 0⟩]
    [⟨1, 1, "b", "f", "j", [], 0, 5⟩] 1 1 ("b") ("f") ("j") none 5
    ⟨1, 1, "b", "f", "j", [], 0, 5⟩ rfl

end Vault

namespace Vault

/-- Claim C7: create then owner-update then read-back — the stored
record carries exactly the update's four mutable fields, keeps the
creation's `id`, `userId` and `createdAt`, and `updatedAt` strictly
increases whenever the clock advanced between the two saves. -/
theorem create_update_readback (db0 : List VaultItem) (uid : Nat)
    (t1 e1 i1 : String) (tg1 : Option (List String)) (newId now1 : Nat)
    (t2 e2 i2 : String) (tg2 : Option (List String)) (now2 : Nat)
    (db1 db2 : List VaultItem) (r1 r2 : VaultItem)
    (hfresh : newId ∉ db0.map VaultItem.id)
    (hc : createItem db0 uid t1 e1 i1 tg1 newId now1 = .ok (db1, r1))
    (hu : updateItem db1 uid newId t2 e2 i2 tg2 now2 = .ok (db2, r2))
    (htime : now1 < now2) :
    r2.id = r1.id ∧ r2.userId = r1.userId ∧ r2.createdAt = r1.createdAt ∧
    r2.title = t2 ∧ r2.encryptedData = e2 ∧ r2.iv = i2 ∧ r2.tags = tg2.getD [] ∧
    r1.updatedAt < r2.updatedAt ∧
    findOneBy db2 newId uid = some r2 := by
  simp only [createItem] at hc
  split at hc
  · exact absurd hc (by simp)
  · injection hc with hc'
    obtain ⟨h1, h2⟩ := Prod.mk.inj hc'
    subst h1
    subst h2
    have hall : ∀ x ∈ db0, (x.id == newId && x.userId == uid) = false := by
      intro x hx
      have hxid : (x.id == newId) = false := by
        refine beq_eq_false_iff_ne.mpr (fun hxe => hfresh ?_)
        rw [← hxe]
        exact List.mem_map_of_mem VaultItem.id hx
      simp [hxid]
    have hf1 : findOneBy (db0 ++ [⟨newId, uid, t1, e1, i1, tg1.getD [], now1, now1⟩])
        newId uid = some ⟨newId, uid, t1, e1, i1, tg1.getD [], now1, now1⟩ := by
      rw [findOneBy, find?_append_singleton hall, if_pos (by simp)]
    simp only [updateItem] at hu
    split at hu
    · exact absurd hu (by simp)
    · split at hu
      · rename_i heq
        rw [hf1] at heq
        exact absurd heq (by simp)
      · rename_i old heq
        rw [hf1] at heq
        injection heq with heq'
        subst heq'
        injection hu with hu'
        obtain ⟨h3, h4⟩ := Prod.mk.inj hu'
        subst h3
        subst h4
        refine ⟨rfl, rfl, rfl, rfl, rfl, rfl, rfl, htime, ?_⟩
        rw [findOneBy, replaceFirst_append_singleton hall, if_pos (by simp),
          find?_append_singleton hall, if_pos (by simp)]

/-- Witness for C7 at a concrete create followed by an update one tick
later. -/
theorem create_update_readback_witness :
    (⟨1, 1, "b", "f", "j", ["s"], 0, 1⟩ : VaultItem).id =
      (⟨1, 1, "a", "e", "i", [], 0, 0⟩ : VaultItem).id ∧
    (⟨1, 1, "b", "f", "j", ["s"], 0, 1⟩ : VaultItem).userId =
      (⟨1, 1, "a", "e", "i", [], 0, 0⟩ : VaultItem).userId ∧
    (⟨1, 1, "b", "f", "j", ["s"], 0, 1⟩ : VaultItem).createdAt =
      (⟨1, 1, "a", "e", "i", [], 0, 0⟩ : VaultItem).createdAt ∧
    (⟨1, 1, "b", "f", "j", ["s"], 0, 1⟩ : VaultItem).title = ("b" : String) ∧
    (⟨1, 1, "b", "f", "j", ["s"], 0, 1⟩ : VaultItem).encryptedData = ("f" : String) ∧
    (⟨1, 1, "b", "f", "j", ["s"], 0, 1⟩ : VaultItem).iv = ("j" : String) ∧
    (⟨1, 1, "b", "f", "j", ["s"], 0, 1⟩ : VaultItem).tags =
      (some ["s"] : Option (List String)).getD [] ∧
    (⟨1, 1, "a", "e", "i", [], 0, 0⟩ : VaultItem).updatedAt <
      (⟨1, 1, "b", "f", "j", ["s"], 0, 1⟩ : VaultItem).updatedAt ∧
    findOneBy [⟨1, 1, "b", "f", "j", ["s"], 0, 1⟩] 1 1 =
      some ⟨1, 1, "b", "f", "j", ["s"], 0, 1⟩ :=
  create_update_readback [] 1 ("a") ("e") ("i") none 1 0 ("b") ("f") ("j")
    (some ["s"]) 1 [⟨1, 1, "a", "e", "i", [], 0, 0⟩] [⟨1, 1, "b", "f", "j", ["s"], 0, 1⟩]
    ⟨1, 1, "a", "e", "i", [], 0, 0⟩ ⟨1, 1, "b", "f", "j", ["s"], 0, 1⟩
    (by decide) rfl rfl (by decide)

/-- Claim C8: `encryptedData` and `iv` round-trip verbatim — a
successful create or update stores and returns exactly the supplied
strings, and the read routes return stored records unchanged (every
returned record is an element of the store). -/
theorem payload_iv_roundtrip (db dbC dbU : List VaultItem) (uid itemId : Nat)
    (title encryptedData iv : String) (tags : Option (List String)) (newId now : Nat)
    (rC rU x : VaultItem) (q : Option String) :
    (createItem db uid title encryptedData iv tags newId now = .ok (dbC, rC) →
      rC.encryptedData = encryptedData ∧ rC.iv = iv ∧ rC ∈ dbC) ∧
    (updateItem db uid itemId title encryptedData iv tags now = .ok (dbU, rU) →
      rU.encryptedData = encryptedData ∧ rU.iv = iv ∧ rU ∈ dbU) ∧
    (x ∈ listItems db uid → x ∈ db) ∧
    (x ∈ searchRoute db uid q → x ∈ db) := by
  refine ⟨?_, ?_, ?_, ?_⟩
  · intro hc
    simp only [createItem] at hc
    split at hc
    · exact absurd hc (by simp)
    · injection hc with hc'
      obtain ⟨h1, h2⟩ := Prod.mk.inj hc'
      subst h1
      subst h2
      exact ⟨rfl, rfl, by simp⟩
  · intro hu
    simp only [updateItem] at hu
    split at hu
    · exact absurd hu (by simp)
    · split at hu
      · exact absurd hu (by simp)
      · rename_i old heq
        injection hu with hu'
        obtain ⟨h1, h2⟩ := Prod.mk.inj hu'
        subst h1
        subst h2
        exact ⟨rfl, rfl, mem_replaceFirst_self heq _⟩
  · exact fun h => (mem_listItems.mp h).1
  · exact mem_db_of_mem_searchRoute

/-- Witness for C8 at a concrete store, create, update and search. -/
theorem payload_iv_roundtrip_witness :
    (createItem [⟨9, 2, "t", "E", "V", [], 0, 0⟩] 2 ("u") ("E2") ("V2") none 10 4 =
        .ok ([⟨9, 2, "t", "E", "V", [], 0, 0⟩, ⟨10, 2, "u", "E2", "V2", [], 4, 4⟩],
          ⟨10, 2, "u", "E2", "V2", [], 4, 4⟩) →
      (⟨10, 2, "u", "E2", "V2", [], 4, 4⟩ : VaultItem).encryptedData = ("E2" : String) ∧
        (⟨10, 2, "u", "E2", "V2", [], 4, 4⟩ : VaultItem).iv = ("V2" : String) ∧
        (⟨10, 2, "u", "E2", "V2", [], 4, 4⟩ : VaultItem) ∈
          [(⟨9, 2, "t", "E", "V", [], 0, 0⟩ : VaultItem), ⟨10, 2, "u", "E2", "V2", [], 4, 4⟩]) ∧
    (updateItem [⟨9, 2, "t", "E", "V", [], 0, 0⟩] 2 9 ("u") ("E2") ("V2") none 4 =
        .ok ([⟨9, 2, "u", "E2", "V2", [], 0, 4⟩], ⟨9, 2, "u", "E2", "V2", [], 0, 4⟩) →
      (⟨9, 2, "u", "E2", "V2", [], 0, 4⟩ : VaultItem).encryptedData = ("E2" : String) ∧
        (⟨9, 2, "u", "E2", "V2", [], 0, 4⟩ : VaultItem).iv = ("V2" : String) ∧
        (⟨9, 2, "u", "E2", "V2", [], 0, 4⟩ : VaultItem) ∈
          [(⟨9, 2, "u", "E2", "V2", [], 0, 4⟩ : VaultItem)]) ∧
    ((⟨9, 2, "t", "E", "V", [], 0, 0⟩ : VaultItem) ∈
        listItems [⟨9, 2, "t", "E", "V", [], 0, 0⟩] 2 →
      (⟨9, 2, "t", "E", "V", [], 0, 0⟩ : VaultItem) ∈
        [(⟨9, 2, "t", "E", "V", [], 0, 0⟩ : VaultItem)]) ∧
    ((⟨9, 2, "t", "E", "V", [], 0, 0⟩ : VaultItem) ∈
        searchRoute [⟨9, 2, "t", "E", "V", [], 0, 0⟩] 2 (some ("t")) →
      (⟨9, 2, "t", "E", "V", [], 0, 0⟩ : VaultItem) ∈
        [(⟨9, 2, "t", "E", "V", [], 0, 0⟩ : VaultItem)]) :=
  payload_iv_roundtrip [⟨9, 2, "t", "E", "V", [], 0, 0⟩]
    [⟨9, 2, "t", "E", "V", [], 0, 0⟩, ⟨10, 2, "u", "E2", "V2", [], 4, 4⟩]
    [⟨9, 2, "u", "E2", "V2", [], 0, 4⟩] 2 9 ("u") ("E2") ("V2") none 10 4
    ⟨10, 2, "u", "E2", "V2", [], 4, 4⟩ ⟨9, 2, "u", "E2", "V2", [], 0, 4⟩
    ⟨9, 2, "t", "E", "V", [], 0, 0⟩ (some ("t"))

/-- Claim C9: after a successful owner delete (with unique ids),
update and delete on the same id by any caller yield the not-found
error, no list or search result ever carries that id again, and the id
is gone from the store — deletion is permanent. -/
theorem delete_permanent (db db' : List VaultItem) (uid itemId uid2 : Nat)
    (title encryptedData iv : String) (tags : Option (List String)) (now : Nat)
    (x : VaultItem) (q : Option String)
    (hnd : (db.map VaultItem.id).Nodup)
    (hdel : deleteItem db uid itemId = .ok db')
    (ht : title ≠ "") (he : encryptedData ≠ "") (hiv : iv ≠ "") :
    deleteItem db' uid2 itemId = .error .notFound ∧
    updateItem db' uid2 itemId title encryptedData iv tags now = .error .notFound ∧
    (x ∈ listItems db' uid2 → x.id ≠ itemId) ∧
    (x ∈ searchRoute db' uid2 q → x.id ≠ itemId) ∧
    itemId ∉ db'.map VaultItem.id := by
  simp only [deleteItem] at hdel
  split at hdel
  · exact absurd hdel (by simp)
  · rename_i r0 heq
    injection hdel with hdel'
    subst hdel'
    have hno : ∀ y ∈ removeFirst (fun r => r.id == itemId && r.userId == uid) db,
        y.id ≠ itemId := removeFirst_no_id hnd heq
    have hfind2 : ∀ u2 : Nat,
        findOneBy (removeFirst (fun r => r.id == itemId && r.userId == uid) db)
          itemId u2 = none := by
      intro u2
      rw [findOneBy, List.find?_eq_none]
      intro y hy hp
      simp only [Bool.and_eq_true, beq_iff_eq] at hp
      exact hno y hy hp.1
    refine ⟨?_, ?_, ?_, ?_, ?_⟩
    · rw [deleteItem, hfind2 uid2]
    · simp only [updateItem]
      rw [if_neg (by simp [ht, he, hiv]), hfind2 uid2]
    · intro hx
      exact hno x (mem_listItems.mp hx).1
    · intro hx
      exact hno x (mem_db_of_mem_searchRoute hx)
    · intro hmem
      obtain ⟨y, hy, hyid⟩ := List.mem_map.mp hmem
      exact hno y hy hyid

/-- Witness for C9: delete the only record, then every follow-up
operation on its id misses. -/
theorem delete_permanent_witness :
    deleteItem [] 2 1 = .error .notFound ∧
    updateItem [] 2 1 ("b") ("f") ("j") none 3 = .error .notFound ∧
    ((⟨1, 1, "a", "e", "i", [], 0, 0⟩ : VaultItem) ∈ listItems [] 2 →
      (⟨1, 1, "a", "e", "i", [], 0, 0⟩ : VaultItem).id ≠ 1) ∧
    ((⟨1, 1, "a", "e", "i", [], 0, 0⟩ : VaultItem) ∈ searchRoute [] 2 none →
      (⟨1, 1, "a", "e", "i", [], 0, 0⟩ : VaultItem).id ≠ 1) ∧
    (1 : Nat) ∉ List.map VaultItem.id [] :=
  delete_permanent [⟨1, 1, "a", "e", "i", [], 0, 0⟩] [] 1 1 2 ("b") ("f") ("j") none 3
    ⟨1, 1, "a", "e", "i", [], 0, 0⟩ none (by decide) rfl (by decide) (by decide) (by decide)

end Vault
